import Mathlib

/-!
Verification of the esim-mailer email core (src/email.rs).

Rust strings are modelled as lists of characters (`Str`), following the
standard shallow-embedding style for Rust string code.  `str::replace` is
modelled by `listReplace` (leftmost, non-overlapping replacement of every
occurrence, no rescanning of the replacement text), `str::rsplit_once` by
`rsplitOnce`.  The fallible external collaborators of `send_email`
(filesystem read, lettre's mailbox parser, content-type parser, message
assembly and SMTP submission, and the `uuid` crate's fresh v4 UUID) are
modelled by an explicit environment `Env`; `send_email` additionally
reports the trace of attempted steps, the built MIME message and the
lines printed to stdout/stderr, so that ordering and framing claims can
be stated.
-/

set_option maxRecDepth 20000

abbrev Str := List Char

def str (s : String) : Str := s.data

/-- Decimal rendering of a `usize`, as produced by Rust's `Display` for
integers inside `format!`. -/
def natStr (n : Nat) : Str := (Nat.repr n).data

/-- Fuel-driven worker for `listReplace`; the fuel is initialised with the
length of the scanned string, which bounds the number of steps. -/
def replaceGo (pat rep : Str) : Nat → Str → Str
  | _, [] => []
  | 0, s => s
  | fuel+1, c :: cs =>
    if pat ≠ [] ∧ pat.isPrefixOf (c :: cs) then
      rep ++ replaceGo pat rep fuel ((c :: cs).drop pat.length)
    else
      c :: replaceGo pat rep fuel cs

/-- Model of Rust `str::replace`: replace every leftmost, non-overlapping
occurrence of `pat` in `s` by `rep`; the replacement text is not rescanned. -/
def listReplace (pat rep s : Str) : Str := replaceGo pat rep s.length s

/-- Predicate `hasMatch pat s = true` iff `pat` occurs as a contiguous substring of `s`. -/
def hasMatch (pat : Str) : Str → Bool
  | [] => pat.isEmpty
  | c :: cs => pat.isPrefixOf (c :: cs) || hasMatch pat cs

/-- Predicate `noLB s = true` iff `s` contains no left-brace character, i.e. no start
of a template placeholder token. -/
def noLB : Str → Bool
  | [] => true
  | c :: cs => !(c == '\x7b') && noLB cs

/-- Model of Rust `str::rsplit_once(sep)`: split around the last occurrence
of `sep`, returning `none` when `sep` does not occur. -/
def rsplitOnce (sep : Char) : Str → Option (Str × Str)
  | [] => none
  | c :: cs =>
    match rsplitOnce sep cs with
    | some (l, r) => some (c :: l, r)
    | none => if c = sep then some ([], cs) else none

instance {ε α : Type} [DecidableEq ε] [DecidableEq α] : DecidableEq (Except ε α) := fun x y =>
  match x, y with
  | .error a, .error b => if h : a = b then .isTrue (by rw [h]) else .isFalse (by simp [h])
  | .ok a, .ok b => if h : a = b then .isTrue (by rw [h]) else .isFalse (by simp [h])
  | .error _, .ok _ => .isFalse (by simp)
  | .ok _, .error _ => .isFalse (by simp)

/-- Rust `ParseProviderError` (src/email.rs:32): carries the full offending
address. -/
structure ParseProviderError where
  addr : Str
deriving DecidableEq

/-- Rust `Provider` (src/email.rs:36-39). -/
inductive Provider
  | Gmail
  | Outlook
deriving DecidableEq

/-- Rust `impl FromStr for Provider` (src/email.rs:44-50): match on
`email.rsplit_once('@')`; `Some((_, "gmail.com"))` is Gmail,
`Some((_, "outlook.com" | "hotmail.com"))` is Outlook, everything else is
`Err(ParseProviderError(email))`. -/
def Provider.fromStr (email : Str) : Except ParseProviderError Provider :=
  match rsplitOnce '@' email with
  | some (_, d) =>
    if d = str "gmail.com" then .ok .Gmail
    else if d = str "outlook.com" ∨ d = str "hotmail.com" then .ok .Outlook
    else .error ⟨email⟩
  | none => .error ⟨email⟩

/-- Spec-side formulation of "the substring after the last `@`": reverse the
string, take the characters up to the first `@`, and reverse back; `none`
when the address contains no `@`. -/
def specDomain (s : Str) : Option Str :=
  if '@' ∈ s then some ((s.reverse.takeWhile (fun c => c ≠ '@')).reverse) else none

/-- Rust `Args` (the caller-supplied request record; fields as used by
src/email.rs). -/
structure Args where
  email_from : Str
  email_to : Str
  bcc : Option Str
  provider : Str
  name : Str
  data_amount : Str
  time_period : Str
  location : Str
deriving DecidableEq

def tokProvider : Str := str "\x7b\x7bprovider\x7d\x7d"

def tokName : Str := str "\x7b\x7bname\x7d\x7d"

def tokData : Str := str "\x7b\x7bdata_amount\x7d\x7d"

def tokTime : Str := str "\x7b\x7btime_period\x7d\x7d"

def tokLocation : Str := str "\x7b\x7blocation\x7d\x7d"

def tokQR : Str := str "\x7b\x7bQR_CID\x7d\x7d"

/-- Modelled from the spec: the bundled HTML body template
(`include_str!("../templates/email_template.html")`, src/email.rs:77) is not
among the given sources.  Per spec §6 it is a fixed HTML document containing
the placeholders `{{provider}}`, `{{name}}`, `{{data_amount}}`,
`{{time_period}}`, `{{location}}` and `{{QR_CID}}`; this model places them in
that order, each surrounded by ordinary brace-free HTML text, with the
`{{QR_CID}}` placeholder inside the inline image reference `src="cid:..."`. -/
def bodyTemplate : Str :=
  str "<html><body><p>Your \x7b\x7bprovider\x7d\x7d eSIM</p><p>Dear \x7b\x7bname\x7d\x7d, your eSIM includes \x7b\x7bdata_amount\x7d\x7d of data for \x7b\x7btime_period\x7d\x7d in \x7b\x7blocation\x7d\x7d.</p><p>Scan the QR code to install:</p><img src=\"cid:\x7b\x7bQR_CID\x7d\x7d\"></body></html>"

def segA : Str := str "<html><body><p>Your "

def segB : Str := str " eSIM</p><p>Dear "

def segC : Str := str ", your eSIM includes "

def segD : Str := str " of data for "

def segE : Str := str " in "

def segF : Str := str ".</p><p>Scan the QR code to install:</p><img src=\"cid:"

def segG : Str := str "\"></body></html>"

def restF : Str := segF ++ (tokQR ++ segG)

def restE : Str := segE ++ (tokLocation ++ restF)

def restD : Str := segD ++ (tokTime ++ restE)

def restC : Str := segC ++ (tokData ++ restD)

def restB : Str := segB ++ (tokName ++ restC)

/-- Rust `EmailTemplate` (src/email.rs:62-65). -/
structure EmailTemplate where
  subject_template : Str
  body_template : Str
deriving DecidableEq

/-- Rust `EmailTemplate::new` (src/email.rs:74-79). -/
def EmailTemplate.new : EmailTemplate :=
  { subject_template := str "[\x7b\x7bprovider\x7d\x7d] \x7b\x7blocation\x7d\x7d eSIM"
  , body_template := bodyTemplate }

/-- Rust `EmailTemplate::subject` (src/email.rs:81-87): replace `{{provider}}`
then `{{location}}` in the subject template, then
`format!("{} - {}", subject, count)`. -/
def EmailTemplate.subject (t : EmailTemplate) (args : Args) (count : Nat) : Str :=
  listReplace tokLocation args.location
    (listReplace tokProvider args.provider t.subject_template)
    ++ str " - " ++ natStr count

/-- Rust `EmailTemplate::body` (src/email.rs:89-96): replace `{{provider}}`,
`{{name}}`, `{{data_amount}}`, `{{time_period}}`, `{{location}}` in the body
template, in exactly that order. -/
def EmailTemplate.body (t : EmailTemplate) (args : Args) : Str :=
  listReplace tokLocation args.location
    (listReplace tokTime args.time_period
      (listReplace tokData args.data_amount
        (listReplace tokName args.name
          (listReplace tokProvider args.provider t.body_template))))

/-- Content-ID generation (src/email.rs:117):
`format!("qr_image_cid@{}", uuid::Uuid::new_v4())`; the fresh UUID string is
supplied by the environment. -/
def contentId (uuid : Str) : Str := str "qr_image_cid@" ++ uuid

/-- Rust `EmailError` (src/email.rs:13-27). -/
inductive EmailError
  | UnsupportedProvider (e : ParseProviderError)
  | MessageError (msg : Str)
  | SmtpError (msg : Str)
  | IoError (msg : Str)
deriving DecidableEq

/-- lettre `TlsParameters` (as used in src/email.rs:196-201): carries the
hostname the TLS parameters are bound to. -/
structure TlsParameters where
  hostname : Str
deriving DecidableEq

/-- lettre `Tls` modes (the source only constructs `Required`). -/
inductive Tls
  | NoTls
  | Opportunistic (params : TlsParameters)
  | Required (params : TlsParameters)
deriving DecidableEq

/-- lettre `Credentials::new(username, password)` (src/email.rs:193). -/
structure Credentials where
  user : Str
  secret : Str
deriving DecidableEq

/-- lettre SMTP authentication `Mechanism`. -/
inductive Mechanism
  | Plain
  | Login
  | Xoauth2
deriving DecidableEq

/-- The configuration of a lettre `SmtpTransport` produced by the builder
chain in src/email.rs:191-202 and 203-218. -/
structure SmtpTransport where
  relayHost : Str
  port : Nat
  tls : Tls
  credentials : Credentials
  authentication : List Mechanism
deriving DecidableEq

/-- Rust `configure_mailer` (src/email.rs:185-220).  `SmtpTransport::relay` and
`TlsParameters::new` are fallible lettre builders, but on the constant
hostnames used here they succeed deterministically, so the model is total
while keeping the `Result` shape of the source. -/
def configure_mailer (provider : Provider) (email_address : Str) (token : Str) :
    Except EmailError SmtpTransport :=
  match provider with
  | .Gmail =>
    .ok { relayHost := str "smtp.gmail.com"
        , port := 587
        , tls := .Required ⟨str "smtp.gmail.com"⟩
        , credentials := ⟨email_address, token⟩
        , authentication := [.Xoauth2] }
  | .Outlook =>
    .ok { relayHost := str "smtp-mail.outlook.com"
        , port := 587
        , tls := .Required ⟨str "smtp-mail.outlook.com"⟩
        , credentials := ⟨email_address, token⟩
        , authentication := [.Xoauth2] }

/-- The multipart MIME message assembled by src/email.rs:124-160: headers
From/To/optional Bcc/Subject, an HTML part, and an inline image part tagged
with the Content-ID. -/
structure Message where
  efrom : Str
  eto : Str
  ebcc : Option Str
  esubject : Str
  htmlBody : Str
  imageCid : Str
  imageBytes : List Nat
deriving DecidableEq

/-- The externally observable steps attempted by one `send_email` call, in
source order. -/
inductive Ev
  | readImage
  | parseFrom
  | parseTo
  | parseBcc
  | parseContentType
  | buildMessage
  | resolveProvider
  | configureTransport
  | submit
deriving DecidableEq

/-- The external collaborators of one `send_email` call: the image file's
contents (or the IO failure message), the verdict of lettre's mailbox
address parser, the outcomes of `ContentType::parse("image/png")` and of the
final multipart assembly, the fresh v4 UUID rendered by
`uuid::Uuid::new_v4()`, and the SMTP submission verdict. -/
structure Env where
  readImage : Except Str (List Nat)
  addrOk : Str → Bool
  contentTypeOk : Bool
  buildOk : Bool
  freshUuid : Str
  sendOk : Bool

/-- The observable outcome of one `send_email` call: the returned result,
the MIME message that was assembled (when assembly was reached), the trace
of attempted steps, and the lines printed to stdout and stderr. -/
structure SendOutput where
  result : Except EmailError Unit
  message : Option Message
  events : List Ev
  stdout : List Str
  stderr : List Str

/-- The tail of `send_email` after the Bcc step (src/email.rs:144-183):
content-type parse, multipart assembly, provider resolution, transport
configuration and submission.  `evs` is the trace accumulated so far. -/
def finishSend (env : Env) (args : Args) (token : Str) (image_data : List Nat)
    (subject body content_id : Str) (mbcc : Option Str) (evs : List Ev) : SendOutput :=
  if env.contentTypeOk then
    if env.buildOk then
      let email : Message :=
        { efrom := args.email_from, eto := args.email_to, ebcc := mbcc
        , esubject := subject, htmlBody := body, imageCid := content_id
        , imageBytes := image_data }
      match Provider.fromStr args.email_from with
      | .error e =>
        { result := .error (.UnsupportedProvider e), message := some email
        , events := evs ++ [.parseContentType, .buildMessage, .resolveProvider]
        , stdout := [], stderr := [] }
      | .ok provider =>
        match configure_mailer provider args.email_from token with
        | .error e =>
          { result := .error e, message := some email
          , events := evs ++ [.parseContentType, .buildMessage, .resolveProvider, .configureTransport]
          , stdout := [], stderr := [] }
        | .ok _mailer =>
          if env.sendOk then
            { result := .ok (), message := some email
            , events := evs ++ [.parseContentType, .buildMessage, .resolveProvider, .configureTransport, .submit]
            , stdout := [str "Email sent successfully!"], stderr := [] }
          else
            { result := .error (.SmtpError (str "Could not send email")), message := some email
            , events := evs ++ [.parseContentType, .buildMessage, .resolveProvider, .configureTransport, .submit]
            , stdout := [], stderr := [str "Could not send email"] }
    else
      { result := .error (.MessageError (str "Failed to build email")), message := none
      , events := evs ++ [.parseContentType, .buildMessage], stdout := [], stderr := [] }
  else
    { result := .error (.MessageError (str "Invalid content type")), message := none
    , events := evs ++ [.parseContentType], stdout := [], stderr := [] }

/-- Rust `send_email` (src/email.rs:99-183): read the image file, render the
subject, generate the Content-ID, render the body and splice the Content-ID
into it, parse From/To and the optional non-empty Bcc, assemble the
multipart message, resolve the provider from the From address, configure the
transport, and submit; the first failing step's error is returned. -/
def send_email (env : Env) (args : Args) (token : Str) (count : Nat) : SendOutput :=
  let template := EmailTemplate.new
  match env.readImage with
  | .error e =>
    { result := .error (.IoError e), message := none, events := [.readImage]
    , stdout := [], stderr := [] }
  | .ok image_data =>
    let subject := template.subject args count
    let content_id := contentId env.freshUuid
    let body_content := template.body args
    let body := listReplace tokQR content_id body_content
    if env.addrOk args.email_from then
      if env.addrOk args.email_to then
        match args.bcc with
        | some bcc =>
          if bcc ≠ [] then
            if env.addrOk bcc then
              finishSend env args token image_data subject body content_id (some bcc)
                [.readImage, .parseFrom, .parseTo, .parseBcc]
            else
              { result := .error (.MessageError (str "Invalid BCC email address"))
              , message := none, events := [.readImage, .parseFrom, .parseTo, .parseBcc]
              , stdout := [], stderr := [] }
          else
            finishSend env args token image_data subject body content_id none
              [.readImage, .parseFrom, .parseTo]
        | none =>
          finishSend env args token image_data subject body content_id none
            [.readImage, .parseFrom, .parseTo]
      else
        { result := .error (.MessageError (str "Invalid to email address"))
        , message := none, events := [.readImage, .parseFrom, .parseTo]
        , stdout := [], stderr := [] }
    else
      { result := .error (.MessageError (str "Invalid from email address"))
      , message := none, events := [.readImage, .parseFrom]
      , stdout := [], stderr := [] }

/-- The Bcc header value the Message Builder attaches: `None` when the Bcc
field is absent or empty, the address itself otherwise. -/
def bccField (args : Args) : Option Str :=
  match args.bcc with
  | some b => if b = [] then none else some b
  | none => none

/-- Whether the Bcc step passes without an error for the given request. -/
def bccAccepted (env : Env) (args : Args) : Bool :=
  match args.bcc with
  | some b => decide (b = []) || env.addrOk b
  | none => true

/-- The image bytes delivered by the environment (defaulting to `[]` on the
IO-error branch, where they are never used). -/
def envImage (env : Env) : List Nat :=
  match env.readImage with
  | .ok d => d
  | .error _ => []

/-- The request record used by the source's own tests
(src/email.rs:229-238). -/
def testArgs : Args :=
  { email_from := str "sender@example.com"
  , email_to := str "recipient@example.com"
  , bcc := none
  , provider := str "TestProvider"
  , name := str "John"
  , data_amount := str "5GB"
  , time_period := str "30 days"
  , location := str "Egypt" }

/-- A request whose location field itself contains a placeholder token:
substitution order makes the rendered body contain `{{provider}}` again. -/
def evilArgs : Args :=
  { testArgs with location := str "\x7b\x7bprovider\x7d\x7d" }

/-- The test request with a sender address at a supported provider
(src/email.rs:308). -/
def argsGmail : Args :=
  { testArgs with email_from := str "test@gmail.com" }

/-- A request whose sender address is parseable but at an unsupported
domain (src/email.rs:278: `foobar@yahoo.com`). -/
def argsYahoo : Args :=
  { testArgs with email_from := str "foobar@yahoo.com" }

/-- An environment in which every external collaborator succeeds. -/
def envAllOk : Env :=
  { readImage := .ok [137, 80, 78, 71]
  , addrOk := fun _ => true
  , contentTypeOk := true
  , buildOk := true
  , freshUuid := str "123e4567-e89b-42d3-a456-426614174000"
  , sendOk := true }

/-- An environment in which reading the image file fails. -/
def envIoFail : Env :=
  { envAllOk with readImage := .error (str "No such file or directory") }

/-- An environment in which the mailbox address parser rejects every
address. -/
def envParseFail : Env :=
  { envAllOk with addrOk := fun _ => false }

/-- Variant of `envAllOk` with a different fresh UUID, modelling the second of two
consecutive sends. -/
def envAllOk2 : Env :=
  { envAllOk with freshUuid := str "00000000-0000-4000-8000-000000000000" }

/-- Whether the Bcc branch actually parses a Bcc address (present and
non-empty). -/
def bccParsed (args : Args) : Bool :=
  match args.bcc with
  | some b => decide (b ≠ [])
  | none => false

/-- The trace of steps taken before message assembly starts. -/
def preEvents (args : Args) : List Ev :=
  if bccParsed args then [.readImage, .parseFrom, .parseTo, .parseBcc]
  else [.readImage, .parseFrom, .parseTo]

/-- The MIME message `send_email` assembles when every step up to assembly
succeeds. -/
def builtMessage (env : Env) (args : Args) (count : Nat) : Message :=
  { efrom := args.email_from
  , eto := args.email_to
  , ebcc := bccField args
  , esubject := EmailTemplate.new.subject args count
  , htmlBody := listReplace tokQR (contentId env.freshUuid) (EmailTemplate.new.body args)
  , imageCid := contentId env.freshUuid
  , imageBytes := envImage env }

/-- The part of `segF` before the literal `cid:` that precedes the spliced
Content-ID in the rendered HTML. -/
def segFpre : Str := str ".</p><p>Scan the QR code to install:</p><img src=\""

/-- A request with a non-empty Bcc address, as in the source's
`test_send_email` (src/email.rs:310). -/
def argsBcc : Args :=
  { argsGmail with bcc := some (str "bcc@example.com") }

/-- A request whose sender address has an empty local part. -/
def argsAtGmail : Args :=
  { testArgs with email_from := str "@gmail.com" }

/-! ### String lemmas -/

theorem noLB_cons (c : Char) (cs : Str) :
    noLB (c :: cs) = true ↔ c ≠ '\x7b' ∧ noLB cs = true := by
  simp [noLB]

theorem isPrefixOf_iff : ∀ (a b : Str), a.isPrefixOf b = true ↔ ∃ t, a ++ t = b := by
  intro a
  induction a with
  | nil =>
    intro b
    simp [List.isPrefixOf]
  | cons x xs ih =>
    intro b
    cases b with
    | nil => simp [List.isPrefixOf]
    | cons y ys =>
      simp only [List.isPrefixOf, Bool.and_eq_true, beq_iff_eq, ih, List.cons_append]
      constructor
      · rintro ⟨rfl, t, rfl⟩
        exact ⟨t, rfl⟩
      · rintro ⟨t, h⟩
        injection h with h1 h2
        exact ⟨h1, t, h2⟩

theorem replaceGo_congr (pat rep : Str) :
    ∀ f g s, s.length ≤ f → s.length ≤ g →
      replaceGo pat rep f s = replaceGo pat rep g s := by
  intro f
  induction f with
  | zero =>
    intro g s hf _
    have hs : s = [] := List.length_eq_zero.mp (Nat.le_zero.mp hf)
    subst hs
    cases g <;> rfl
  | succ f ih =>
    intro g s hf hg
    cases s with
    | nil => cases g <;> rfl
    | cons c cs =>
      cases g with
      | zero => simp at hg
      | succ g =>
        simp only [replaceGo]
        by_cases h : pat ≠ [] ∧ pat.isPrefixOf (c :: cs)
        · rw [if_pos h, if_pos h]
          have hplen : 1 ≤ pat.length := by
            cases pat with
            | nil => exact absurd rfl h.1
            | cons _ _ => simp
          congr 1
          apply ih
          · simp only [List.length_drop, List.length_cons]
            simp only [List.length_cons] at hf
            omega
          · simp only [List.length_drop, List.length_cons]
            simp only [List.length_cons] at hg
            omega
        · rw [if_neg h, if_neg h]
          simp only [List.length_cons] at hf hg
          rw [ih g cs (by omega) (by omega)]

theorem listReplace_nil (pat rep : Str) : listReplace pat rep [] = [] := rfl

theorem listReplace_cons (pat rep : Str) (c : Char) (cs : Str) :
    listReplace pat rep (c :: cs) =
      if pat ≠ [] ∧ pat.isPrefixOf (c :: cs) then
        rep ++ listReplace pat rep ((c :: cs).drop pat.length)
      else
        c :: listReplace pat rep cs := by
  show replaceGo pat rep (c :: cs).length (c :: cs) = _
  simp only [List.length_cons, replaceGo]
  by_cases h : pat ≠ [] ∧ pat.isPrefixOf (c :: cs)
  · rw [if_pos h, if_pos h]
    have hplen : 1 ≤ pat.length := by
      cases pat with
      | nil => exact absurd rfl h.1
      | cons _ _ => simp
    congr 1
    apply replaceGo_congr
    · simp only [List.length_drop, List.length_cons]
      omega
    · exact Nat.le_refl _
  · rw [if_neg h, if_neg h]
    rfl

theorem listReplace_skip (pat rep q : Str) (hq : pat = '\x7b' :: q) :
    ∀ x y, noLB x = true → listReplace pat rep (x ++ y) = x ++ listReplace pat rep y := by
  intro x
  induction x with
  | nil => intro y _; rfl
  | cons c cs ih =>
    intro y hx
    rw [noLB_cons] at hx
    have hnot : ¬ (pat ≠ [] ∧ pat.isPrefixOf (c :: (cs ++ y))) := by
      rintro ⟨-, hpre⟩
      obtain ⟨t, ht⟩ := (isPrefixOf_iff pat _).mp hpre
      rw [hq, List.cons_append] at ht
      injection ht with h1 _
      exact hx.1 h1.symm
    rw [List.cons_append, listReplace_cons, if_neg hnot, ih y hx.2]
    rfl

theorem listReplace_head (pat rep y : Str) (hp : pat ≠ []) :
    listReplace pat rep (pat ++ y) = rep ++ listReplace pat rep y := by
  cases pat with
  | nil => exact absurd rfl hp
  | cons p ps =>
    rw [List.cons_append, listReplace_cons, if_pos]
    · have hdrop : (p :: (ps ++ y)).drop (p :: ps).length = y := by
        simp only [List.length_cons, List.drop_succ_cons, List.drop_left]
      rw [hdrop]
    · refine ⟨by simp, ?_⟩
      exact (isPrefixOf_iff _ _).mpr ⟨y, by rw [List.cons_append]⟩

theorem listReplace_no_occ (pat rep : Str) :
    ∀ s, hasMatch pat s = false → listReplace pat rep s = s := by
  intro s
  induction s with
  | nil => intro _; rfl
  | cons c cs ih =>
    intro h
    simp only [hasMatch, Bool.or_eq_false_iff] at h
    rw [listReplace_cons, if_neg, ih h.2]
    rintro ⟨-, hpre⟩
    rw [h.1] at hpre
    exact Bool.false_ne_true hpre

theorem hasMatch_skip (pat q : Str) (hq : pat = '\x7b' :: q) :
    ∀ x y, noLB x = true → hasMatch pat (x ++ y) = hasMatch pat y := by
  intro x
  induction x with
  | nil => intro y _; rfl
  | cons c cs ih =>
    intro y hx
    rw [noLB_cons] at hx
    rw [List.cons_append]
    show (pat.isPrefixOf (c :: (cs ++ y)) || hasMatch pat (cs ++ y)) = hasMatch pat y
    have hpre : pat.isPrefixOf (c :: (cs ++ y)) = false := by
      cases hcon : pat.isPrefixOf (c :: (cs ++ y)) with
      | false => rfl
      | true =>
        obtain ⟨t, ht⟩ := (isPrefixOf_iff pat _).mp hcon
        rw [hq, List.cons_append] at ht
        injection ht with h1 _
        exact absurd h1.symm hx.1
    rw [hpre, Bool.false_or, ih y hx.2]

theorem hasMatch_iff (pat : Str) : ∀ s, hasMatch pat s = true ↔ ∃ u v, s = u ++ (pat ++ v) := by
  intro s
  induction s with
  | nil =>
    show pat.isEmpty = true ↔ _
    constructor
    · intro h
      have : pat = [] := by
        cases pat with
        | nil => rfl
        | cons _ _ => simp [List.isEmpty] at h
      exact ⟨[], [], by simp [this]⟩
    · rintro ⟨u, v, h⟩
      rcases List.append_eq_nil.mp h.symm with ⟨-, h2⟩
      rcases List.append_eq_nil.mp h2 with ⟨h3, -⟩
      simp [h3, List.isEmpty]
  | cons c cs ih =>
    show (pat.isPrefixOf (c :: cs) || hasMatch pat cs) = true ↔ _
    rw [Bool.or_eq_true]
    constructor
    · rintro (hpre | hm)
      · obtain ⟨t, ht⟩ := (isPrefixOf_iff _ _).mp hpre
        exact ⟨[], t, by rw [List.nil_append, ht]⟩
      · obtain ⟨u, v, huv⟩ := ih.mp hm
        exact ⟨c :: u, v, by rw [huv, List.cons_append]⟩
    · rintro ⟨u, v, huv⟩
      cases u with
      | nil =>
        left
        rw [List.nil_append] at huv
        exact (isPrefixOf_iff _ _).mpr ⟨v, huv.symm⟩
      | cons c2 u2 =>
        right
        rw [List.cons_append] at huv
        injection huv with _ h2
        exact ih.mpr ⟨u2, v, h2⟩

/-! ### Lemmas about rsplitOnce and the spec-side domain extraction -/

theorem takeWhile_append_all (p : Char → Bool) :
    ∀ (a b : Str), (∀ c ∈ a, p c = true) → (a ++ b).takeWhile p = a ++ b.takeWhile p := by
  intro a
  induction a with
  | nil => intro b _; rfl
  | cons c cs ih =>
    intro b h
    rw [List.cons_append, List.takeWhile_cons, if_pos (h c (List.mem_cons_self c cs)),
      ih b (fun x hx => h x (List.mem_cons_of_mem c hx)), List.cons_append]

theorem takeWhile_append_stop (p : Char → Bool) :
    ∀ (a b : Str) (c0 : Char), c0 ∈ a → p c0 = false →
      (a ++ b).takeWhile p = a.takeWhile p := by
  intro a
  induction a with
  | nil =>
    intro b c0 h
    simp at h
  | cons c cs ih =>
    intro b c0 hmem hp
    rw [List.cons_append, List.takeWhile_cons, List.takeWhile_cons]
    by_cases hc : p c = true
    · have hc0 : c0 ∈ cs := by
        rcases List.mem_cons.mp hmem with h1 | h1
        · subst h1; rw [hp] at hc; exact absurd hc (by simp)
        · exact h1
      rw [if_pos hc, if_pos hc, ih b c0 hc0 hp]
    · rw [if_neg hc, if_neg hc]

theorem rsplitOnce_eq_none_iff (sep : Char) : ∀ s, rsplitOnce sep s = none ↔ sep ∉ s := by
  intro s
  induction s with
  | nil => simp [rsplitOnce]
  | cons c cs ih =>
    simp only [rsplitOnce]
    cases h : rsplitOnce sep cs with
    | some pr =>
      have hmem : sep ∈ cs := by
        by_contra hn
        rw [ih.mpr hn] at h
        exact Option.noConfusion h
      simp [List.mem_cons, hmem]
    | none =>
      have hnot : sep ∉ cs := ih.mp h
      by_cases hc : c = sep
      · simp [hc]
      · simp only [if_neg hc, List.mem_cons]
        constructor
        · rintro - (h1 | h1)
          · exact hc h1.symm
          · exact hnot h1
        · intro _; trivial

theorem rsplitOnce_append (sep : Char) (d : Str) (hd : sep ∉ d) :
    ∀ x, rsplitOnce sep (x ++ (sep :: d)) = some (x, d) := by
  intro x
  induction x with
  | nil =>
    rw [List.nil_append]
    show (match rsplitOnce sep d with
      | some (l, r) => some (sep :: l, r)
      | none => if sep = sep then some ([], d) else none) = some ([], d)
    rw [(rsplitOnce_eq_none_iff sep d).mpr hd]
    simp
  | cons c cs ih =>
    rw [List.cons_append]
    show (match rsplitOnce sep (cs ++ (sep :: d)) with
      | some (l, r) => some (c :: l, r)
      | none => if c = sep then some ([], cs ++ (sep :: d)) else none) = some (c :: cs, d)
    rw [ih]

theorem rsplit_snd_eq_specDomain : ∀ s : Str, (rsplitOnce '@' s).map Prod.snd = specDomain s := by
  intro s
  induction s with
  | nil => simp [rsplitOnce, specDomain]
  | cons c cs ih =>
    simp only [rsplitOnce]
    cases h : rsplitOnce '@' cs with
    | some pr =>
      obtain ⟨l, r⟩ := pr
      have hmem : '@' ∈ cs := by
        by_contra hn
        rw [(rsplitOnce_eq_none_iff _ _).mpr hn] at h
        exact Option.noConfusion h
      rw [h] at ih
      simp only [Option.map_some] at ih ⊢
      unfold specDomain at ih ⊢
      rw [if_pos hmem] at ih
      rw [if_pos (List.mem_cons_of_mem c hmem), List.reverse_cons,
        takeWhile_append_stop _ cs.reverse [c] '@' (List.mem_reverse.mpr hmem) (by simp)]
      exact ih
    | none =>
      have hnot : '@' ∉ cs := (rsplitOnce_eq_none_iff _ _).mp h
      by_cases hc : c = '@'
      · subst hc
        rw [if_pos rfl]
        unfold specDomain
        rw [if_pos (List.mem_cons_self _ _), List.reverse_cons,
          takeWhile_append_all _ cs.reverse _
            (fun x hx => by
              simp only [decide_eq_true_eq]
              exact fun he => hnot (by rw [← he]; exact List.mem_reverse.mp hx))]
        simp
      · rw [if_neg hc]
        unfold specDomain
        rw [if_neg (by
          rw [List.mem_cons]
          rintro (h1 | h1)
          · exact hc h1.symm
          · exact hnot h1)]
        rfl

/-! ### Template decomposition lemmas -/

theorem tokProvider_eq : tokProvider = '\x7b' :: str "\x7bprovider\x7d\x7d" := rfl

theorem tokName_eq : tokName = '\x7b' :: str "\x7bname\x7d\x7d" := rfl

theorem tokData_eq : tokData = '\x7b' :: str "\x7bdata_amount\x7d\x7d" := rfl

theorem tokTime_eq : tokTime = '\x7b' :: str "\x7btime_period\x7d\x7d" := rfl

theorem tokLocation_eq : tokLocation = '\x7b' :: str "\x7blocation\x7d\x7d" := rfl

theorem tokQR_eq : tokQR = '\x7b' :: str "\x7bQR_CID\x7d\x7d" := rfl

theorem subject_decomp (args : Args) (count : Nat) (hp : noLB args.provider = true) :
    EmailTemplate.new.subject args count =
      str "[" ++ (args.provider ++ (str "] " ++ (args.location ++ (str " eSIM - " ++ natStr count)))) := by
  show listReplace tokLocation args.location
      (listReplace tokProvider args.provider (str "[\x7b\x7bprovider\x7d\x7d] \x7b\x7blocation\x7d\x7d eSIM"))
      ++ str " - " ++ natStr count = _
  rw [show (str "[\x7b\x7bprovider\x7d\x7d] \x7b\x7blocation\x7d\x7d eSIM") =
        str "[" ++ (tokProvider ++ (str "] " ++ (tokLocation ++ str " eSIM"))) from rfl]
  rw [listReplace_skip tokProvider args.provider _ tokProvider_eq (str "[") _ (by decide)]
  rw [listReplace_head tokProvider args.provider _ (by decide)]
  rw [listReplace_no_occ tokProvider args.provider _ (by decide)]
  rw [listReplace_skip tokLocation args.location _ tokLocation_eq (str "[") _ (by decide)]
  rw [listReplace_skip tokLocation args.location _ tokLocation_eq args.provider _ hp]
  rw [listReplace_skip tokLocation args.location _ tokLocation_eq (str "] ") _ (by decide)]
  rw [listReplace_head tokLocation args.location _ (by decide)]
  rw [listReplace_no_occ tokLocation args.location _ (by decide)]
  simp only [List.append_assoc]
  rfl

theorem body_decomp (args : Args) (hp : noLB args.provider = true) (hn : noLB args.name = true)
    (hd : noLB args.data_amount = true) (ht : noLB args.time_period = true)
    (_hl : noLB args.location = true) :
    EmailTemplate.new.body args =
      segA ++ (args.provider ++ (segB ++ (args.name ++ (segC ++ (args.data_amount ++
        (segD ++ (args.time_period ++ (segE ++ (args.location ++ restF))))))))) := by
  show listReplace tokLocation args.location
    (listReplace tokTime args.time_period
      (listReplace tokData args.data_amount
        (listReplace tokName args.name
          (listReplace tokProvider args.provider bodyTemplate)))) = _
  rw [show bodyTemplate = segA ++ (tokProvider ++ restB) from rfl]
  rw [listReplace_skip tokProvider args.provider _ tokProvider_eq segA _ (by decide)]
  rw [listReplace_head tokProvider args.provider _ (by decide)]
  rw [listReplace_no_occ tokProvider args.provider _ (by decide)]
  rw [show restB = segB ++ (tokName ++ restC) from rfl]
  rw [listReplace_skip tokName args.name _ tokName_eq segA _ (by decide)]
  rw [listReplace_skip tokName args.name _ tokName_eq args.provider _ hp]
  rw [listReplace_skip tokName args.name _ tokName_eq segB _ (by decide)]
  rw [listReplace_head tokName args.name _ (by decide)]
  rw [listReplace_no_occ tokName args.name _ (by decide)]
  rw [show restC = segC ++ (tokData ++ restD) from rfl]
  rw [listReplace_skip tokData args.data_amount _ tokData_eq segA _ (by decide)]
  rw [listReplace_skip tokData args.data_amount _ tokData_eq args.provider _ hp]
  rw [listReplace_skip tokData args.data_amount _ tokData_eq segB _ (by decide)]
  rw [listReplace_skip tokData args.data_amount _ tokData_eq args.name _ hn]
  rw [listReplace_skip tokData args.data_amount _ tokData_eq segC _ (by decide)]
  rw [listReplace_head tokData args.data_amount _ (by decide)]
  rw [listReplace_no_occ tokData args.data_amount _ (by decide)]
  rw [show restD = segD ++ (tokTime ++ restE) from rfl]
  rw [listReplace_skip tokTime args.time_period _ tokTime_eq segA _ (by decide)]
  rw [listReplace_skip tokTime args.time_period _ tokTime_eq args.provider _ hp]
  rw [listReplace_skip tokTime args.time_period _ tokTime_eq segB _ (by decide)]
  rw [listReplace_skip tokTime args.time_period _ tokTime_eq args.name _ hn]
  rw [listReplace_skip tokTime args.time_period _ tokTime_eq segC _ (by decide)]
  rw [listReplace_skip tokTime args.time_period _ tokTime_eq args.data_amount _ hd]
  rw [listReplace_skip tokTime args.time_period _ tokTime_eq segD _ (by decide)]
  rw [listReplace_head tokTime args.time_period _ (by decide)]
  rw [listReplace_no_occ tokTime args.time_period _ (by decide)]
  rw [show restE = segE ++ (tokLocation ++ restF) from rfl]
  rw [listReplace_skip tokLocation args.location _ tokLocation_eq segA _ (by decide)]
  rw [listReplace_skip tokLocation args.location _ tokLocation_eq args.provider _ hp]
  rw [listReplace_skip tokLocation args.location _ tokLocation_eq segB _ (by decide)]
  rw [listReplace_skip tokLocation args.location _ tokLocation_eq args.name _ hn]
  rw [listReplace_skip tokLocation args.location _ tokLocation_eq segC _ (by decide)]
  rw [listReplace_skip tokLocation args.location _ tokLocation_eq args.data_amount _ hd]
  rw [listReplace_skip tokLocation args.location _ tokLocation_eq segD _ (by decide)]
  rw [listReplace_skip tokLocation args.location _ tokLocation_eq args.time_period _ ht]
  rw [listReplace_skip tokLocation args.location _ tokLocation_eq segE _ (by decide)]
  rw [listReplace_head tokLocation args.location _ (by decide)]
  rw [listReplace_no_occ tokLocation args.location _ (by decide)]

theorem bodyQR_decomp (args : Args) (cid : Str)
    (hp : noLB args.provider = true) (hn : noLB args.name = true)
    (hd : noLB args.data_amount = true) (ht : noLB args.time_period = true)
    (hl : noLB args.location = true) :
    listReplace tokQR cid (EmailTemplate.new.body args) =
      segA ++ (args.provider ++ (segB ++ (args.name ++ (segC ++ (args.data_amount ++
        (segD ++ (args.time_period ++ (segE ++ (args.location ++ (segF ++ (cid ++ segG))))))))))) := by
  rw [body_decomp args hp hn hd ht hl]
  rw [show restF = segF ++ (tokQR ++ segG) from rfl]
  rw [listReplace_skip tokQR cid _ tokQR_eq segA _ (by decide)]
  rw [listReplace_skip tokQR cid _ tokQR_eq args.provider _ hp]
  rw [listReplace_skip tokQR cid _ tokQR_eq segB _ (by decide)]
  rw [listReplace_skip tokQR cid _ tokQR_eq args.name _ hn]
  rw [listReplace_skip tokQR cid _ tokQR_eq segC _ (by decide)]
  rw [listReplace_skip tokQR cid _ tokQR_eq args.data_amount _ hd]
  rw [listReplace_skip tokQR cid _ tokQR_eq segD _ (by decide)]
  rw [listReplace_skip tokQR cid _ tokQR_eq args.time_period _ ht]
  rw [listReplace_skip tokQR cid _ tokQR_eq segE _ (by decide)]
  rw [listReplace_skip tokQR cid _ tokQR_eq args.location _ hl]
  rw [listReplace_skip tokQR cid _ tokQR_eq segF _ (by decide)]
  rw [listReplace_head tokQR cid _ (by decide)]
  rw [listReplace_no_occ tokQR cid _ (by decide)]

theorem hasMatch_body_strip (tok q : Str) (hq : tok = '\x7b' :: q) (args : Args)
    (hp : noLB args.provider = true) (hn : noLB args.name = true)
    (hd : noLB args.data_amount = true) (ht : noLB args.time_period = true)
    (hl : noLB args.location = true) :
    hasMatch tok (EmailTemplate.new.body args) = hasMatch tok restF := by
  rw [body_decomp args hp hn hd ht hl]
  rw [hasMatch_skip tok q hq segA _ (by decide)]
  rw [hasMatch_skip tok q hq args.provider _ hp]
  rw [hasMatch_skip tok q hq segB _ (by decide)]
  rw [hasMatch_skip tok q hq args.name _ hn]
  rw [hasMatch_skip tok q hq segC _ (by decide)]
  rw [hasMatch_skip tok q hq args.data_amount _ hd]
  rw [hasMatch_skip tok q hq segD _ (by decide)]
  rw [hasMatch_skip tok q hq args.time_period _ ht]
  rw [hasMatch_skip tok q hq segE _ (by decide)]
  rw [hasMatch_skip tok q hq args.location _ hl]

/-! ### Structural lemmas about finishSend and send_email -/

theorem finishSend_message_shape (env : Env) (args : Args) (token : Str) (d : List Nat)
    (s b c : Str) (mb : Option Str) (evs : List Ev) (m : Message)
    (h : (finishSend env args token d s b c mb evs).message = some m) :
    m = { efrom := args.email_from, eto := args.email_to, ebcc := mb
        , esubject := s, htmlBody := b, imageCid := c, imageBytes := d } := by
  unfold finishSend at h
  repeat' split at h
  all_goals simp_all

theorem finishSend_events (env : Env) (args : Args) (token : Str) (d : List Nat)
    (s b c : Str) (mb : Option Str) (evs : List Ev) :
    ∃ tail, (finishSend env args token d s b c mb evs).events = evs ++ tail ∧
      Ev.parseBcc ∉ tail := by
  unfold finishSend
  repeat' split
  all_goals exact ⟨_, rfl, by decide⟩

theorem finishSend_unsupported (env : Env) (args : Args) (token : Str) (d : List Nat)
    (s b c : Str) (mb : Option Str) (evs : List Ev) (e : ParseProviderError)
    (hct : env.contentTypeOk = true) (hb : env.buildOk = true)
    (hfs : Provider.fromStr args.email_from = .error e) :
    (finishSend env args token d s b c mb evs).result = .error (.UnsupportedProvider e) ∧
    (finishSend env args token d s b c mb evs).message =
      some { efrom := args.email_from, eto := args.email_to, ebcc := mb
           , esubject := s, htmlBody := b, imageCid := c, imageBytes := d } ∧
    (finishSend env args token d s b c mb evs).events =
      evs ++ [.parseContentType, .buildMessage, .resolveProvider] := by
  simp [finishSend, hct, hb, hfs]

theorem finishSend_ok (env : Env) (args : Args) (token : Str) (d : List Nat)
    (s b c : Str) (mb : Option Str) (evs : List Ev)
    (h : (finishSend env args token d s b c mb evs).result = .ok ()) :
    (finishSend env args token d s b c mb evs).message =
      some { efrom := args.email_from, eto := args.email_to, ebcc := mb
           , esubject := s, htmlBody := b, imageCid := c, imageBytes := d } ∧
    (finishSend env args token d s b c mb evs).stdout = [str "Email sent successfully!"] ∧
    (finishSend env args token d s b c mb evs).stderr = [] := by
  by_cases hct : env.contentTypeOk
  · by_cases hbd : env.buildOk
    · rcases hfs : Provider.fromStr args.email_from with e | p
      · simp [finishSend, hct, hbd, hfs] at h
      · by_cases hs : env.sendOk
        · cases p <;> simp [finishSend, hct, hbd, hfs, configure_mailer, hs]
        · cases p <;> simp [finishSend, hct, hbd, hfs, configure_mailer, hs] at h
    · simp [finishSend, hct, hbd] at h
  · simp [finishSend, hct] at h

theorem send_email_to_finish (env : Env) (args : Args) (token : Str) (count : Nat)
    (d : List Nat) (hri : env.readImage = .ok d) (hf : env.addrOk args.email_from = true)
    (ht2 : env.addrOk args.email_to = true) (hb : bccAccepted env args = true) :
    send_email env args token count =
      finishSend env args token d (EmailTemplate.new.subject args count)
        (listReplace tokQR (contentId env.freshUuid) (EmailTemplate.new.body args))
        (contentId env.freshUuid) (bccField args) (preEvents args) := by
  cases hbc : args.bcc with
  | none =>
    simp [send_email, hri, hf, ht2, hbc, bccField, preEvents, bccParsed]
  | some b =>
    by_cases hbe : b = []
    · simp [send_email, hri, hf, ht2, hbc, hbe, bccField, preEvents, bccParsed]
    · have hba : env.addrOk b = true := by
        unfold bccAccepted at hb
        rw [hbc] at hb
        simpa [hbe] using hb
      simp [send_email, hri, hf, ht2, hbc, hbe, hba, bccField, preEvents, bccParsed]

theorem send_message_shape (env : Env) (args : Args) (token : Str) (count : Nat) (m : Message)
    (h : (send_email env args token count).message = some m) :
    m = builtMessage env args count := by
  cases hri : env.readImage with
  | error e => simp [send_email, hri] at h
  | ok d =>
    by_cases hf : env.addrOk args.email_from = true
    case neg => simp [send_email, hri, hf] at h
    by_cases ht2 : env.addrOk args.email_to = true
    case neg => simp [send_email, hri, hf, ht2] at h
    have hacc : bccAccepted env args = true ∨
        (send_email env args token count).message = none := by
      cases hbc : args.bcc with
      | none => exact Or.inl (by simp [bccAccepted, hbc])
      | some b =>
        by_cases hbe : b = []
        · exact Or.inl (by simp [bccAccepted, hbc, hbe])
        · by_cases hba : env.addrOk b = true
          · exact Or.inl (by simp [bccAccepted, hbc, hba])
          · exact Or.inr (by simp [send_email, hri, hf, ht2, hbc, hbe, hba])
    rcases hacc with hacc | hnone
    · rw [send_email_to_finish env args token count d hri hf ht2 hacc] at h
      have hm := finishSend_message_shape _ _ _ _ _ _ _ _ _ _ h
      rw [hm]
      simp [builtMessage, envImage, hri]
    · rw [hnone] at h
      exact Option.noConfusion h

theorem send_ok_shape (env : Env) (args : Args) (token : Str) (count : Nat)
    (h : (send_email env args token count).result = .ok ()) :
    (send_email env args token count).message = some (builtMessage env args count) ∧
    (send_email env args token count).stdout = [str "Email sent successfully!"] ∧
    (send_email env args token count).stderr = [] := by
  cases hri : env.readImage with
  | error e => simp [send_email, hri] at h
  | ok d =>
    by_cases hf : env.addrOk args.email_from = true
    case neg => simp [send_email, hri, hf] at h
    by_cases ht2 : env.addrOk args.email_to = true
    case neg => simp [send_email, hri, hf, ht2] at h
    have hacc : bccAccepted env args = true := by
      cases hbc : args.bcc with
      | none => simp [bccAccepted, hbc]
      | some b =>
        by_cases hbe : b = []
        · simp [bccAccepted, hbc, hbe]
        · by_cases hba : env.addrOk b = true
          · simp [bccAccepted, hbc, hba]
          · exfalso
            simp [send_email, hri, hf, ht2, hbc, hbe, hba] at h
    rw [send_email_to_finish env args token count d hri hf ht2 hacc] at h ⊢
    obtain ⟨hm, ho, he⟩ := finishSend_ok _ _ _ _ _ _ _ _ _ h
    refine ⟨?_, ho, he⟩
    rw [hm]
    simp [builtMessage, envImage, hri]

/-! ### Provider resolution -/

theorem fromStr_cases (s : Str) :
    (∃ d, specDomain s = some d ∧
      ((d = str "gmail.com" ∧ Provider.fromStr s = .ok .Gmail) ∨
       (d ≠ str "gmail.com" ∧ (d = str "outlook.com" ∨ d = str "hotmail.com") ∧
         Provider.fromStr s = .ok .Outlook) ∨
       (d ≠ str "gmail.com" ∧ d ≠ str "outlook.com" ∧ d ≠ str "hotmail.com" ∧
         Provider.fromStr s = .error ⟨s⟩))) ∨
    (specDomain s = none ∧ Provider.fromStr s = .error ⟨s⟩) := by
  have hag := rsplit_snd_eq_specDomain s
  cases hro : rsplitOnce '@' s with
  | none =>
    rw [hro] at hag
    simp only [Option.map_none'] at hag
    exact Or.inr ⟨hag.symm, by simp [Provider.fromStr, hro]⟩
  | some pr =>
    obtain ⟨l, d⟩ := pr
    rw [hro] at hag
    simp only [Option.map_some'] at hag
    refine Or.inl ⟨d, hag.symm, ?_⟩
    by_cases h1 : d = str "gmail.com"
    · exact Or.inl ⟨h1, by simp [Provider.fromStr, hro, h1]⟩
    · by_cases h2 : d = str "outlook.com" ∨ d = str "hotmail.com"
      · exact Or.inr (Or.inl ⟨h1, h2, by simp [Provider.fromStr, hro, h1, h2]⟩)
      · have hno := not_or.mp h2
        exact Or.inr (Or.inr ⟨h1, hno.1, hno.2, by simp [Provider.fromStr, hro, h1, h2]⟩)

/-- C1: provider resolution looks only at the substring after the last `@`:
it returns Gmail exactly for the literal domain `gmail.com`, Outlook exactly
for `outlook.com` or `hotmail.com`, and otherwise (including addresses with
no `@`) fails with an error carrying the exact full input address; the match
is case-sensitive and does not accept sub-domains. -/
theorem provider_resolution (s : Str) :
    (Provider.fromStr s = .ok .Gmail ↔ specDomain s = some (str "gmail.com")) ∧
    (Provider.fromStr s = .ok .Outlook ↔
      (specDomain s = some (str "outlook.com") ∨ specDomain s = some (str "hotmail.com"))) ∧
    (specDomain s ≠ some (str "gmail.com") → specDomain s ≠ some (str "outlook.com") →
      specDomain s ≠ some (str "hotmail.com") → Provider.fromStr s = .error ⟨s⟩) ∧
    Provider.fromStr (str "user@GMAIL.com") = .error ⟨str "user@GMAIL.com"⟩ ∧
    Provider.fromStr (str "user@mail.gmail.com") = .error ⟨str "user@mail.gmail.com"⟩ ∧
    Provider.fromStr (str "nodomain") = .error ⟨str "nodomain"⟩ := by
  refine ⟨?_, ?_, ?_, by decide, by decide, by decide⟩
  · rcases fromStr_cases s with ⟨d, hsd, hc⟩ | ⟨hsd, hfs⟩
    · rcases hc with ⟨h1, hfs⟩ | ⟨h1, h2, hfs⟩ | ⟨h1, h2, h3, hfs⟩
      · rw [hfs, hsd, h1]
        simp
      · rw [hfs, hsd]
        simp [h1]
      · rw [hfs, hsd]
        simp [h1]
    · rw [hfs, hsd]
      simp
  · rcases fromStr_cases s with ⟨d, hsd, hc⟩ | ⟨hsd, hfs⟩
    · rcases hc with ⟨h1, hfs⟩ | ⟨h1, h2, hfs⟩ | ⟨h1, h2, h3, hfs⟩
      · rw [hfs, hsd, h1]
        decide
      · rw [hfs, hsd]
        rcases h2 with h2 | h2 <;> simp [h2]
      · rw [hfs, hsd]
        simp [h2, h3]
    · rw [hfs, hsd]
      simp
  · intro g1 g2 g3
    rcases fromStr_cases s with ⟨d, hsd, hc⟩ | ⟨hsd, hfs⟩
    · rcases hc with ⟨h1, hfs⟩ | ⟨h1, h2, hfs⟩ | ⟨h1, h2, h3, hfs⟩
      · exact absurd (by rw [hsd, h1]) g1
      · rcases h2 with h2 | h2
        · exact absurd (by rw [hsd, h2]) g2
        · exact absurd (by rw [hsd, h2]) g3
      · exact hfs
    · exact hfs

theorem provider_resolution_witness :
    Provider.fromStr (str "foobar@yahoo.com") = .error ⟨str "foobar@yahoo.com"⟩ ∧
    (Provider.fromStr (str "foobar@gmail.com") = .ok .Gmail ↔
      specDomain (str "foobar@gmail.com") = some (str "gmail.com")) := by
  constructor
  · exact (provider_resolution (str "foobar@yahoo.com")).2.2.1
      (by decide) (by decide) (by decide)
  · exact (provider_resolution (str "foobar@gmail.com")).1

/-- C10: provider resolution performs no validation of the text before the
last `@`: every string whose suffix after the last `@` is `gmail.com`
resolves to Gmail, including an empty local part and strings with several
`@`s; such a string can still be rejected later by the address parser, with
a MessageError. -/
theorem provider_ignores_local_part :
    (∀ lp : Str, Provider.fromStr (lp ++ str "@gmail.com") = .ok .Gmail) ∧
    Provider.fromStr (str "@gmail.com") = .ok .Gmail ∧
    Provider.fromStr (str "a@b@gmail.com") = .ok .Gmail ∧
    (send_email envParseFail argsAtGmail (str "token") 1).result =
      .error (.MessageError (str "Invalid from email address")) := by
  refine ⟨?_, by decide, by decide, by decide⟩
  intro lp
  have h0 : lp ++ str "@gmail.com" = lp ++ ('@' :: str "gmail.com") := rfl
  rw [h0]
  unfold Provider.fromStr
  rw [rsplitOnce_append '@' (str "gmail.com") (by decide) lp]
  simp

/-! ### Pipeline ordering, transport configuration, templates -/

/-- C2: the send pipeline runs its steps in the fixed source order and stops
at the first failure: an unreadable image yields IoError with nothing else
attempted; an unparseable From address yields MessageError (never
UnsupportedProvider) before provider resolution; and a parseable From
address at an unsupported domain yields UnsupportedProvider only after the
message has been assembled, with no submission and no transport
configuration attempted. -/
theorem send_pipeline_order (env : Env) (args : Args) (token : Str) (count : Nat) :
    (∀ e, env.readImage = .error e →
      (send_email env args token count).result = .error (.IoError e) ∧
      (send_email env args token count).events = [.readImage]) ∧
    (∀ d, env.readImage = .ok d → env.addrOk args.email_from = false →
      (send_email env args token count).result =
        .error (.MessageError (str "Invalid from email address")) ∧
      (send_email env args token count).events = [.readImage, .parseFrom] ∧
      Ev.submit ∉ (send_email env args token count).events) ∧
    (∀ d e, env.readImage = .ok d → env.addrOk args.email_from = true →
      env.addrOk args.email_to = true → bccAccepted env args = true →
      env.contentTypeOk = true → env.buildOk = true →
      Provider.fromStr args.email_from = .error e →
      (send_email env args token count).result = .error (.UnsupportedProvider e) ∧
      (send_email env args token count).message = some (builtMessage env args count) ∧
      Ev.submit ∉ (send_email env args token count).events ∧
      Ev.configureTransport ∉ (send_email env args token count).events) := by
  refine ⟨?_, ?_, ?_⟩
  · intro e hri
    constructor <;> simp [send_email, hri]
  · intro d hri hf
    refine ⟨?_, ?_, ?_⟩ <;> simp [send_email, hri, hf]
  · intro d e hri hf ht2 hacc hct hbd hfs
    rw [send_email_to_finish env args token count d hri hf ht2 hacc]
    obtain ⟨hr, hm, he⟩ := finishSend_unsupported env args token d
      (EmailTemplate.new.subject args count)
      (listReplace tokQR (contentId env.freshUuid) (EmailTemplate.new.body args))
      (contentId env.freshUuid) (bccField args) (preEvents args) e hct hbd hfs
    refine ⟨hr, ?_, ?_, ?_⟩
    · rw [hm]
      simp [builtMessage, envImage, hri]
    · rw [he]
      by_cases hbp : bccParsed args <;> simp [preEvents, hbp]
    · rw [he]
      by_cases hbp : bccParsed args <;> simp [preEvents, hbp]

theorem send_pipeline_order_witness :
    (send_email envIoFail argsYahoo (str "token") 1).result =
      .error (.IoError (str "No such file or directory")) ∧
    (send_email envAllOk argsYahoo (str "token") 1).result =
      .error (.UnsupportedProvider ⟨str "foobar@yahoo.com"⟩) ∧
    Ev.submit ∉ (send_email envAllOk argsYahoo (str "token") 1).events := by
  have h1 := (send_pipeline_order envIoFail argsYahoo (str "token") 1).1
    (str "No such file or directory") rfl
  have h3 := (send_pipeline_order envAllOk argsYahoo (str "token") 1).2.2
    [137, 80, 78, 71] ⟨str "foobar@yahoo.com"⟩ rfl rfl rfl (by decide) rfl rfl (by decide)
  exact ⟨h1.1, h3.1, h3.2.2.1⟩

/-- C3: for Gmail the transport is configured with relay host
`smtp.gmail.com`, port 587, required TLS bound to that same hostname,
credentials `(from_address, token)`, and the authentication-mechanism list
restricted to exactly XOAUTH2; for Outlook the configuration is identical in
shape with host `smtp-mail.outlook.com`. -/
theorem transport_config (addr token : Str) :
    configure_mailer .Gmail addr token =
      .ok { relayHost := str "smtp.gmail.com", port := 587
          , tls := .Required ⟨str "smtp.gmail.com"⟩
          , credentials := ⟨addr, token⟩, authentication := [.Xoauth2] } ∧
    configure_mailer .Outlook addr token =
      .ok { relayHost := str "smtp-mail.outlook.com", port := 587
          , tls := .Required ⟨str "smtp-mail.outlook.com"⟩
          , credentials := ⟨addr, token⟩, authentication := [.Xoauth2] } ∧
    (∀ p cfg, configure_mailer p addr token = .ok cfg →
      cfg.tls = .Required ⟨cfg.relayHost⟩ ∧ cfg.port = 587 ∧
      cfg.credentials = ⟨addr, token⟩ ∧ cfg.authentication = [.Xoauth2]) := by
  refine ⟨rfl, rfl, ?_⟩
  intro p cfg h
  cases p <;>
  · simp only [configure_mailer, Except.ok.injEq] at h
    rw [← h]
    exact ⟨rfl, rfl, rfl, rfl⟩

theorem transport_config_witness :
    (SmtpTransport.mk (str "smtp.gmail.com") 587 (.Required ⟨str "smtp.gmail.com"⟩)
        ⟨str "test@gmail.com", str "token"⟩ [.Xoauth2]).tls =
      .Required ⟨(SmtpTransport.mk (str "smtp.gmail.com") 587
        (.Required ⟨str "smtp.gmail.com"⟩)
        ⟨str "test@gmail.com", str "token"⟩ [.Xoauth2]).relayHost⟩ ∧
    (SmtpTransport.mk (str "smtp.gmail.com") 587 (.Required ⟨str "smtp.gmail.com"⟩)
        ⟨str "test@gmail.com", str "token"⟩ [.Xoauth2]).authentication = [.Xoauth2] := by
  have h := (transport_config (str "test@gmail.com") (str "token")).2.2 .Gmail
    (SmtpTransport.mk (str "smtp.gmail.com") 587 (.Required ⟨str "smtp.gmail.com"⟩)
      ⟨str "test@gmail.com", str "token"⟩ [.Xoauth2]) rfl
  exact ⟨h.1, h.2.2.2⟩

/-- C4: subject rendering is the template `[{{provider}}] {{location}} eSIM`
with the two placeholders replaced by the request fields, followed by
`" - "` and the decimal rendering of the count; in particular the source
test's input renders exactly `[TestProvider] Egypt eSIM - 1`. -/
theorem subject_render (args : Args) (count : Nat) :
    (EmailTemplate.new.subject args count =
      listReplace tokLocation args.location
        (listReplace tokProvider args.provider
          (str "[\x7b\x7bprovider\x7d\x7d] \x7b\x7blocation\x7d\x7d eSIM"))
        ++ str " - " ++ natStr count) ∧
    (noLB args.provider = true →
      EmailTemplate.new.subject args count =
        str "[" ++ (args.provider ++ (str "] " ++ (args.location ++
          (str " eSIM - " ++ natStr count))))) ∧
    EmailTemplate.new.subject testArgs 1 = str "[TestProvider] Egypt eSIM - 1" := by
  refine ⟨rfl, ?_, by decide⟩
  intro hp
  exact subject_decomp args count hp

theorem subject_render_witness :
    noLB (str "TestProvider") = true ∧
    EmailTemplate.new.subject testArgs 2 = str "[TestProvider] Egypt eSIM - 2" := by
  refine ⟨by decide, ?_⟩
  have h := (subject_render testArgs 2).2.1 (by decide)
  rw [h]
  decide

/-! ### Body rendering, Content-ID binding, Bcc handling, success framing -/

theorem finishSend_built (env : Env) (args : Args) (token : Str) (d : List Nat)
    (s b c : Str) (mb : Option Str) (evs : List Ev)
    (hct : env.contentTypeOk = true) (hbd : env.buildOk = true) :
    (finishSend env args token d s b c mb evs).message =
      some { efrom := args.email_from, eto := args.email_to, ebcc := mb
           , esubject := s, htmlBody := b, imageCid := c, imageBytes := d } := by
  unfold finishSend
  rcases hfs : Provider.fromStr args.email_from with e | p
  · simp [hct, hbd, hfs]
  · by_cases hs : env.sendOk <;> cases p <;> simp [hct, hbd, hfs, configure_mailer, hs]

/-- C5 (amended): body rendering is exactly the five successive literal
substitutions, in source order; when no field value contains a left brace
the output contains every substituted field verbatim, contains none of the
five resolved placeholder tokens, and still contains the unresolved
`{{QR_CID}}` placeholder.  (For adversarial field values that themselves
contain placeholder tokens the original "no token remains" guarantee fails;
see the counterexample.) -/
theorem body_render (args : Args) :
    (EmailTemplate.new.body args =
      listReplace tokLocation args.location
        (listReplace tokTime args.time_period
          (listReplace tokData args.data_amount
            (listReplace tokName args.name
              (listReplace tokProvider args.provider bodyTemplate))))) ∧
    (noLB args.provider = true → noLB args.name = true → noLB args.data_amount = true →
      noLB args.time_period = true → noLB args.location = true →
      (∀ f ∈ [args.provider, args.name, args.data_amount, args.time_period, args.location],
        ∃ u v, EmailTemplate.new.body args = u ++ (f ++ v)) ∧
      (∀ tok ∈ [tokProvider, tokName, tokData, tokTime, tokLocation],
        ¬ ∃ u v, EmailTemplate.new.body args = u ++ (tok ++ v)) ∧
      (∃ u v, EmailTemplate.new.body args = u ++ (tokQR ++ v))) := by
  refine ⟨rfl, ?_⟩
  intro hp hn hda hti hlo
  have hdec := body_decomp args hp hn hda hti hlo
  refine ⟨?_, ?_, ?_⟩
  · intro f hf
    simp only [List.mem_cons, List.not_mem_nil, or_false] at hf
    rcases hf with rfl | rfl | rfl | rfl | rfl
    · exact ⟨segA, _, by rw [hdec]⟩
    · refine ⟨segA ++ (args.provider ++ segB),
        segC ++ (args.data_amount ++ (segD ++ (args.time_period ++
          (segE ++ (args.location ++ restF))))), ?_⟩
      rw [hdec]
      simp [List.append_assoc]
    · refine ⟨segA ++ (args.provider ++ (segB ++ (args.name ++ segC))),
        segD ++ (args.time_period ++ (segE ++ (args.location ++ restF))), ?_⟩
      rw [hdec]
      simp [List.append_assoc]
    · refine ⟨segA ++ (args.provider ++ (segB ++ (args.name ++
        (segC ++ (args.data_amount ++ segD))))),
        segE ++ (args.location ++ restF), ?_⟩
      rw [hdec]
      simp [List.append_assoc]
    · refine ⟨segA ++ (args.provider ++ (segB ++ (args.name ++ (segC ++
        (args.data_amount ++ (segD ++ (args.time_period ++ segE))))))),
        restF, ?_⟩
      rw [hdec]
      simp [List.append_assoc]
  · intro tok htok hex
    have hm := (hasMatch_iff tok (EmailTemplate.new.body args)).mpr hex
    simp only [List.mem_cons, List.not_mem_nil, or_false] at htok
    rcases htok with rfl | rfl | rfl | rfl | rfl
    · rw [hasMatch_body_strip tokProvider _ tokProvider_eq args hp hn hda hti hlo] at hm
      exact absurd hm (by decide)
    · rw [hasMatch_body_strip tokName _ tokName_eq args hp hn hda hti hlo] at hm
      exact absurd hm (by decide)
    · rw [hasMatch_body_strip tokData _ tokData_eq args hp hn hda hti hlo] at hm
      exact absurd hm (by decide)
    · rw [hasMatch_body_strip tokTime _ tokTime_eq args hp hn hda hti hlo] at hm
      exact absurd hm (by decide)
    · rw [hasMatch_body_strip tokLocation _ tokLocation_eq args hp hn hda hti hlo] at hm
      exact absurd hm (by decide)
  · refine ⟨segA ++ (args.provider ++ (segB ++ (args.name ++ (segC ++
      (args.data_amount ++ (segD ++ (args.time_period ++ (segE ++
        (args.location ++ segF))))))))), segG, ?_⟩
    rw [hdec, show restF = segF ++ (tokQR ++ segG) from rfl]
    simp [List.append_assoc]

/-- C5 counterexample: with `location` itself equal to the `{{provider}}`
token, the rendered body does contain a resolved placeholder token. -/
theorem body_render_cex :
    ∃ u v, EmailTemplate.new.body evilArgs = u ++ (tokProvider ++ v) :=
  (hasMatch_iff tokProvider (EmailTemplate.new.body evilArgs)).mp (by decide)

theorem body_render_witness :
    ∃ u v, EmailTemplate.new.body testArgs = u ++ (str "John" ++ v) :=
  ((body_render testArgs).2 (by decide) (by decide) (by decide) (by decide) (by decide)).1
    (str "John") (by decide)

/-- C6: on a successful send the HTML body is the rendered body with the
`{{QR_CID}}` placeholder replaced by the freshly generated Content-ID, the
inline image part carries exactly the same Content-ID (so the HTML part
references its own image part, via `cid:`), and two sends whose fresh UUIDs
differ generate different Content-IDs. -/
theorem content_id_binding (env : Env) (args : Args) (token : Str) (count : Nat) :
    ((send_email env args token count).result = .ok () →
      (send_email env args token count).message = some (builtMessage env args count) ∧
      (builtMessage env args count).imageCid = contentId env.freshUuid ∧
      (builtMessage env args count).htmlBody =
        listReplace tokQR (contentId env.freshUuid) (EmailTemplate.new.body args)) ∧
    ((send_email env args token count).result = .ok () →
      noLB args.provider = true → noLB args.name = true → noLB args.data_amount = true →
      noLB args.time_period = true → noLB args.location = true →
      ∃ m u v, (send_email env args token count).message = some m ∧
        m.htmlBody = u ++ ((str "cid:" ++ m.imageCid) ++ v)) ∧
    (∀ uuid2 : Str, env.freshUuid ≠ uuid2 → contentId env.freshUuid ≠ contentId uuid2) := by
  refine ⟨?_, ?_, ?_⟩
  · intro h
    exact ⟨(send_ok_shape env args token count h).1, rfl, rfl⟩
  · intro h hp hn hda hti hlo
    refine ⟨builtMessage env args count,
      segA ++ (args.provider ++ (segB ++ (args.name ++ (segC ++ (args.data_amount ++
        (segD ++ (args.time_period ++ (segE ++ (args.location ++ segFpre))))))))), segG,
      (send_ok_shape env args token count h).1, ?_⟩
    simp only [builtMessage]
    rw [bodyQR_decomp args (contentId env.freshUuid) hp hn hda hti hlo]
    rw [show segF = segFpre ++ str "cid:" from rfl]
    simp [List.append_assoc]
  · intro uuid2 hne heq
    exact hne (List.append_cancel_left heq)

theorem content_id_binding_witness :
    (∃ m u v, (send_email envAllOk argsGmail (str "token") 1).message = some m ∧
      m.htmlBody = u ++ ((str "cid:" ++ m.imageCid) ++ v)) ∧
    contentId envAllOk.freshUuid ≠ contentId envAllOk2.freshUuid := by
  constructor
  · exact (content_id_binding envAllOk argsGmail (str "token") 1).2.1 rfl
      (by decide) (by decide) (by decide) (by decide) (by decide)
  · exact (content_id_binding envAllOk argsGmail (str "token") 1).2.2
      envAllOk2.freshUuid (by decide)

/-- C7: an absent or empty Bcc attaches no Bcc header and raises no error;
a present non-empty Bcc is parsed and attached, and a Bcc parse failure
yields a MessageError. -/
theorem bcc_handling (env : Env) (args : Args) (token : Str) (count : Nat) :
    ∀ d2, env.readImage = .ok d2 → env.addrOk args.email_from = true →
      env.addrOk args.email_to = true →
      ((args.bcc = none ∨ args.bcc = some []) →
        Ev.parseBcc ∉ (send_email env args token count).events ∧
        (env.contentTypeOk = true → env.buildOk = true →
          ∃ m, (send_email env args token count).message = some m ∧ m.ebcc = none)) ∧
      (∀ b, args.bcc = some b → b ≠ [] → env.addrOk b = true →
        env.contentTypeOk = true → env.buildOk = true →
        ∃ m, (send_email env args token count).message = some m ∧ m.ebcc = some b) ∧
      (∀ b, args.bcc = some b → b ≠ [] → env.addrOk b = false →
        (send_email env args token count).result =
          .error (.MessageError (str "Invalid BCC email address")) ∧
        (send_email env args token count).message = none) := by
  intro d2 hri hf ht2
  refine ⟨?_, ?_, ?_⟩
  · intro hbcc
    have hacc : bccAccepted env args = true := by
      rcases hbcc with hbcc | hbcc <;> simp [bccAccepted, hbcc]
    have hbp : bccParsed args = false := by
      rcases hbcc with hbcc | hbcc <;> simp [bccParsed, hbcc]
    have hbf : bccField args = none := by
      rcases hbcc with hbcc | hbcc <;> simp [bccField, hbcc]
    rw [send_email_to_finish env args token count d2 hri hf ht2 hacc]
    constructor
    · obtain ⟨tail, het, hnb⟩ := finishSend_events env args token d2 _ _ _ _ _
      rw [het]
      intro hmem
      rcases List.mem_append.mp hmem with hm | hm
      · rw [preEvents, hbp] at hm
        exact absurd hm (by decide)
      · exact hnb hm
    · intro hct hbd
      refine ⟨_, finishSend_built env args token d2 _ _ _ _ _ hct hbd, ?_⟩
      exact hbf
  · intro b hbc hbe hba hct hbd
    have hacc : bccAccepted env args = true := by simp [bccAccepted, hbc, hba]
    have hbf : bccField args = some b := by simp [bccField, hbc, hbe]
    rw [send_email_to_finish env args token count d2 hri hf ht2 hacc]
    refine ⟨_, finishSend_built env args token d2 _ _ _ _ _ hct hbd, ?_⟩
    exact hbf
  · intro b hbc hbe hba
    constructor <;> simp [send_email, hri, hf, ht2, hbc, hbe, hba]

theorem bcc_handling_witness :
    (∃ m, (send_email envAllOk argsBcc (str "token") 1).message = some m ∧
      m.ebcc = some (str "bcc@example.com")) ∧
    Ev.parseBcc ∉ (send_email envAllOk argsGmail (str "token") 1).events := by
  constructor
  · exact (bcc_handling envAllOk argsBcc (str "token") 1 [137, 80, 78, 71] rfl rfl rfl).2.1
      (str "bcc@example.com") rfl (by decide) rfl rfl rfl
  · exact ((bcc_handling envAllOk argsGmail (str "token") 1 [137, 80, 78, 71] rfl rfl rfl).1
      (Or.inl rfl)).1

/-- C8 counterexample: on a successful submission `send_email` itself prints
the confirmation line to stdout (src/email.rs:169), so the core does not
leave all user-facing output to the caller layer. -/
theorem send_prints_cex :
    (send_email envAllOk argsGmail (str "token") 1).result = .ok () ∧
    (send_email envAllOk argsGmail (str "token") 1).stdout ≠ [] := by
  constructor
  · rfl
  · decide

/-- C8 (amended): on a successful submission the send operation returns the
success result and itself prints exactly the confirmation line
`Email sent successfully!` to stdout (printing nothing to stderr); the
user-facing confirmation is not left to the caller layer. -/
theorem send_success_prints (env : Env) (args : Args) (token : Str) (count : Nat) :
    (send_email env args token count).result = .ok () →
    (send_email env args token count).stdout = [str "Email sent successfully!"] ∧
    (send_email env args token count).stderr = [] := by
  intro h
  exact ⟨(send_ok_shape env args token count h).2.1, (send_ok_shape env args token count h).2.2⟩

theorem send_success_prints_witness :
    (send_email envAllOk argsGmail (str "token") 2).stdout = [str "Email sent successfully!"] :=
  (send_success_prints envAllOk argsGmail (str "token") 2 rfl).1

/-- C9: every generated Content-ID is the literal prefix `qr_image_cid@`
followed by the environment's fresh UUID rendering, so it always begins
with `qr_image_cid@`; the image part of any assembled message carries
exactly this Content-ID. -/
theorem content_id_form :
    (∀ uuid : Str, contentId uuid = str "qr_image_cid@" ++ uuid ∧
      (str "qr_image_cid@").isPrefixOf (contentId uuid) = true) ∧
    (∀ env args token count m, (send_email env args token count).message = some m →
      m.imageCid = contentId env.freshUuid) := by
  constructor
  · intro uuid
    exact ⟨rfl, (isPrefixOf_iff _ _).mpr ⟨uuid, rfl⟩⟩
  · intro env args token count m h
    rw [send_message_shape env args token count m h]
    rfl

theorem content_id_form_witness :
    (str "qr_image_cid@").isPrefixOf
      (contentId (str "123e4567-e89b-42d3-a456-426614174000")) = true ∧
    (builtMessage envAllOk argsGmail 1).imageCid = contentId envAllOk.freshUuid := by
  constructor
  · exact (content_id_form.1 (str "123e4567-e89b-42d3-a456-426614174000")).2
  · exact content_id_form.2 envAllOk argsGmail (str "token") 1
      (builtMessage envAllOk argsGmail 1) rfl
